import Mathlib

set_option maxHeartbeats 1000000

namespace PD

/-!
Shallow embedding of the reliability core of src/agents/tools.py:
the sliding-window `RateLimiter` and the exponential-backoff
`retry_with_backoff` helper.  Timestamps and delays are modelled as
rationals; the integer-typed Python fields (`max_calls`, `time_window`,
`max_retries`) are modelled as `ℤ`.  Methods that mutate `self` are
modelled by explicit state passing: each returns its Python return value
together with the updated limiter state.
-/

/-- The `RateLimiter` dataclass (tools.py): `max_calls : int`,
`time_window : int` (seconds), `calls : List[float]` (defaults to `[]`). -/
structure RateLimiter where
  max_calls : ℤ
  time_window : ℤ
  calls : List ℚ
deriving DecidableEq

/-- Method `RateLimiter.can_make_request` (tools.py lines 25-31): at current time
`now`, replace `calls` by the entries with `now - call_time < time_window`,
then return whether the remaining count is strictly below `max_calls`.
The boolean result is paired with the mutated state. -/
def RateLimiter.can_make_request (rl : RateLimiter) (now : ℚ) : Bool × RateLimiter :=
  let pruned := rl.calls.filter (fun call_time => decide (now - call_time < (rl.time_window : ℚ)))
  (decide ((pruned.length : ℤ) < rl.max_calls), RateLimiter.mk rl.max_calls rl.time_window pruned)

/-- Method `RateLimiter.record_request` (tools.py lines 33-35): append the current
timestamp to `calls`. -/
def RateLimiter.record_request (rl : RateLimiter) (now : ℚ) : RateLimiter :=
  RateLimiter.mk rl.max_calls rl.time_window (rl.calls ++ [now])

/-- Method `RateLimiter.wait_if_needed` (tools.py lines 37-43): if
`can_make_request()` is false, compute
`wait_time = time_window - (now - calls[0])` and sleep that long when it is
positive.  The outer `none` models the `IndexError` raised by `calls[0]` on
an empty list; otherwise the result carries the slept duration (or `none`
when nothing was slept) and the state left behind by `can_make_request`. -/
def RateLimiter.wait_if_needed (rl : RateLimiter) (now : ℚ) : Option (Option ℚ × RateLimiter) :=
  match rl.can_make_request now with
  | (true, st) => some (none, st)
  | (false, st) =>
    match st.calls with
    | [] => none
    | t0 :: _ =>
      if (rl.time_window : ℚ) - (now - t0) > 0
        then some (some ((rl.time_window : ℚ) - (now - t0)), st)
        else some (none, st)

/-- A Python exception value, identified by its class (`kind`) and message:
`retry_with_backoff` classifies an exception only by whether its class is
among `retryable_exceptions`, and otherwise passes it through unchanged. -/
structure Exc where
  kind : String
  msg : String
deriving DecidableEq

/-- The `RetryConfig` class (tools.py lines 51-57): three fields assigned by the
constructor, no validation. -/
structure RetryConfig where
  max_retries : ℤ
  base_delay : ℚ
  backoff_factor : ℚ
deriving DecidableEq

/-- The source defaults `RetryConfig(max_retries=3, base_delay=1.0,
backoff_factor=2.0)`, also used when `retry_config is None`. -/
def defaultRetryConfig : RetryConfig := RetryConfig.mk 3 1 2

/-- The default `retryable_exceptions = (httpx.RequestError,
httpx.HTTPStatusError)`, as a list of exception-class names. -/
def defaultRetryable : List String := ["httpx.RequestError", "httpx.HTTPStatusError"]

/-- How a `retry_with_backoff` run ends: the wrapped operation's value is
returned, an exception propagates to the caller, or the trailing
`raise last_exception` executes with `last_exception` still `None`. -/
inductive RetryOutcome (α : Type) where
  | ok : α → RetryOutcome α
  | raised : Exc → RetryOutcome α
  | raisedNone : RetryOutcome α
deriving DecidableEq

/-- Observable trace of one `retry_with_backoff` run: how it ended, how many
times the operation was invoked, and the delays passed to `asyncio.sleep`
in order. -/
structure RetryResult (α : Type) where
  outcome : RetryOutcome α
  invocations : ℕ
  delays : List ℚ
deriving DecidableEq

/-- The `for attempt in range(max_retries + 1)` loop of `retry_with_backoff`
(tools.py lines 72-90).  `fuel` is the number of loop iterations left and
`attempt` the current 0-indexed attempt; `last` models `last_exception`,
`invoked` and `ds` accumulate the trace (`ds` holds delays most recent
first).  The operation's behaviour is `func`, mapping the invocation index
to its outcome; `retryable` lists the classes of `retryable_exceptions`.
When the fuel runs out the trailing `raise last_exception` runs. -/
def retry_go (cfg : RetryConfig) (retryable : List String) (func : ℕ → Except Exc α) :
    ℕ → ℕ → Option Exc → ℕ → List ℚ → RetryResult α
  | _, 0, last, invoked, ds =>
    RetryResult.mk
      (match last with
        | some e => RetryOutcome.raised e
        | none => RetryOutcome.raisedNone)
      invoked ds.reverse
  | attempt, fuel + 1, _, invoked, ds =>
    match func attempt with
    | Except.ok v => RetryResult.mk (RetryOutcome.ok v) (invoked + 1) ds.reverse
    | Except.error e =>
      if e.kind ∈ retryable then
        if (attempt : ℤ) = cfg.max_retries then
          RetryResult.mk (RetryOutcome.raised e) (invoked + 1) ds.reverse
        else
          retry_go cfg retryable func (attempt + 1) fuel (some e) (invoked + 1)
            (cfg.base_delay * cfg.backoff_factor ^ attempt :: ds)
      else
        RetryResult.mk (RetryOutcome.raised e) (invoked + 1) ds.reverse

/-- Function `retry_with_backoff` (tools.py lines 60-90) with an explicit config:
the loop runs over `range(max_retries + 1)`, i.e. `(max_retries + 1).toNat`
iterations, starting at attempt 0 with `last_exception = None`. -/
def retry_with_backoff (cfg : RetryConfig) (retryable : List String)
    (func : ℕ → Except Exc α) : RetryResult α :=
  retry_go cfg retryable func 0 (cfg.max_retries + 1).toNat none 0 []

/-- The dataclass-generated `RateLimiter.__init__`: it only assigns the
fields (`calls` defaulting to `[]`) and contains no validation, so as a
fallible constructor it always succeeds. -/
def RateLimiter.init (max_calls time_window : ℤ) : Except String RateLimiter :=
  Except.ok (RateLimiter.mk max_calls time_window [])

/-- Constructor `RetryConfig.__init__` (tools.py lines 54-57): assigns the three fields,
no validation, so as a fallible constructor it always succeeds. -/
def RetryConfig.init (max_retries : ℤ) (base_delay backoff_factor : ℚ) :
    Except String RetryConfig :=
  Except.ok (RetryConfig.mk max_retries base_delay backoff_factor)

/-! ### Helper lemmas shared by the claim theorems -/

lemma can_make_request_fst (rl : RateLimiter) (now : ℚ) :
    (rl.can_make_request now).1
      = decide (((rl.can_make_request now).2.calls.length : ℤ) < rl.max_calls) := rfl

lemma can_make_request_snd (rl : RateLimiter) (now : ℚ) :
    (rl.can_make_request now).2
      = RateLimiter.mk rl.max_calls rl.time_window
          (rl.calls.filter (fun call_time => decide (now - call_time < (rl.time_window : ℚ)))) :=
  rfl

lemma filter_filter_self (p : α → Bool) (l : List α) :
    (l.filter p).filter p = l.filter p := by
  induction l with
  | nil => rfl
  | cons a l ih => by_cases h : p a <;> simp [List.filter_cons, h, ih]

lemma wait_if_needed_of_true (rl : RateLimiter) (now : ℚ)
    (h : (rl.can_make_request now).1 = true) :
    rl.wait_if_needed now = some (none, (rl.can_make_request now).2) := by
  unfold RateLimiter.wait_if_needed
  rcases hcm : rl.can_make_request now with ⟨b, st⟩
  rw [hcm] at h
  simp only at h
  subst h
  rfl

lemma wait_if_needed_of_false_nil (rl : RateLimiter) (now : ℚ)
    (h : (rl.can_make_request now).1 = false)
    (hc : (rl.can_make_request now).2.calls = []) :
    rl.wait_if_needed now = none := by
  unfold RateLimiter.wait_if_needed
  rcases hcm : rl.can_make_request now with ⟨b, st⟩
  rw [hcm] at h hc
  simp only at h hc
  subst h
  obtain ⟨mc, tw, cs⟩ := st
  simp only at hc
  subst hc
  rfl

lemma wait_if_needed_of_false_cons (rl : RateLimiter) (now t0 : ℚ) (rest : List ℚ)
    (h : (rl.can_make_request now).1 = false)
    (hc : (rl.can_make_request now).2.calls = t0 :: rest) :
    rl.wait_if_needed now =
      if (rl.time_window : ℚ) - (now - t0) > 0
        then some (some ((rl.time_window : ℚ) - (now - t0)), (rl.can_make_request now).2)
        else some (none, (rl.can_make_request now).2) := by
  unfold RateLimiter.wait_if_needed
  rcases hcm : rl.can_make_request now with ⟨b, st⟩
  rw [hcm] at h hc
  simp only at h hc
  subst h
  obtain ⟨mc, tw, cs⟩ := st
  simp only at hc
  subst hc
  rfl

/-! ### Claim theorems about the rate limiter -/

/-- C1: `can_make_request()` at time `now` first replaces `calls` with
exactly the entries `t` with `now - t < time_window` (adding none), then
returns true iff the remaining count is strictly below `max_calls`; in
particular it returns false when exactly `max_calls` unexpired entries
remain and true when `max_calls - 1` remain. -/
theorem can_make_request_prunes_then_checks (rl : RateLimiter) (now : ℚ) :
    ((rl.can_make_request now).2.calls
        = rl.calls.filter (fun call_time => decide (now - call_time < (rl.time_window : ℚ)))) ∧
    ((rl.can_make_request now).1 = true ↔
        (((rl.can_make_request now).2.calls.length : ℤ) < rl.max_calls)) ∧
    ((((rl.can_make_request now).2.calls.length : ℤ) = rl.max_calls →
        (rl.can_make_request now).1 = false)) ∧
    ((((rl.can_make_request now).2.calls.length : ℤ) = rl.max_calls - 1 →
        (rl.can_make_request now).1 = true)) := by
  refine ⟨rfl, ?_, ?_, ?_⟩ <;> rw [can_make_request_fst] <;> simp <;> omega

/-- C1 witness: with `max_calls = 2`, window 60, recorded calls at 10 and
100, a check at time 110 prunes to `[100]` and permits the request. -/
theorem can_make_request_prunes_then_checks_witness :
    ((RateLimiter.mk 2 60 [10, 100]).can_make_request 110).2.calls = [100] ∧
    ((RateLimiter.mk 2 60 [10, 100]).can_make_request 110).1 = true := by
  have h := can_make_request_prunes_then_checks (RateLimiter.mk 2 60 [10, 100]) 110
  refine ⟨?_, h.2.2.2 ?_⟩ <;> norm_num [RateLimiter.can_make_request, List.filter]

/-- C9: `can_make_request()` is idempotent at a fixed instant: a second call
at the same `now` returns the same boolean and leaves `calls` exactly as the
first call left it. -/
theorem can_make_request_idempotent (rl : RateLimiter) (now : ℚ) :
    ((rl.can_make_request now).2.can_make_request now).1 = (rl.can_make_request now).1 ∧
    ((rl.can_make_request now).2.can_make_request now).2 = (rl.can_make_request now).2 := by
  constructor <;>
    simp [RateLimiter.can_make_request, filter_filter_self]

/-- C8: with `max_calls ≥ 1`, whenever `can_make_request()` returns false the
pruned `calls` list is non-empty, so `calls[0]` inside `wait_if_needed` never
raises (the `IndexError` branch, modelled by `none`, is unreachable). -/
theorem wait_if_needed_index_safe (rl : RateLimiter) (now : ℚ)
    (hmax : 1 ≤ rl.max_calls) (hfalse : (rl.can_make_request now).1 = false) :
    (rl.can_make_request now).2.calls ≠ [] ∧ (rl.wait_if_needed now).isSome = true := by
  have h1 : ¬ (((rl.can_make_request now).2.calls.length : ℤ) < rl.max_calls) := by
    intro hlt
    rw [can_make_request_fst] at hfalse
    simp [hlt] at hfalse
  have hpos : 0 < (rl.can_make_request now).2.calls.length := by
    rcases Nat.eq_zero_or_pos (rl.can_make_request now).2.calls.length with hz | hp
    · exfalso
      rw [hz] at h1
      push_cast at h1
      omega
    · exact hp
  have hne : (rl.can_make_request now).2.calls ≠ [] :=
    List.ne_nil_of_length_pos hpos
  refine ⟨hne, ?_⟩
  obtain ⟨t0, rest, hc⟩ := List.exists_cons_of_ne_nil hne
  rw [wait_if_needed_of_false_cons rl now t0 rest hfalse hc]
  split_ifs <;> rfl

/-- C8 witness: limiter with `max_calls = 1`, window 60, one call at 100;
at time 110 the check denies, the pruned list is `[100]`, and
`wait_if_needed` completes without the index error. -/
theorem wait_if_needed_index_safe_witness :
    ((RateLimiter.mk 1 60 [100]).can_make_request 110).2.calls ≠ [] ∧
    ((RateLimiter.mk 1 60 [100]).wait_if_needed 110).isSome = true := by
  exact wait_if_needed_index_safe (RateLimiter.mk 1 60 [100]) 110 (by norm_num)
    (by norm_num [RateLimiter.can_make_request, List.filter])

/-- C6: `wait_if_needed()` sleeps nothing and returns promptly when
`can_make_request()` is true; when it is false and the pruned list has head
`t0`, it sleeps `time_window - (now - t0)` exactly when that quantity is
positive and otherwise does nothing; and in every completed case the final
`calls` list is exactly the pruned original (no entry is appended). -/
theorem wait_if_needed_spec (rl : RateLimiter) (now : ℚ) :
    ((rl.can_make_request now).1 = true →
        rl.wait_if_needed now = some (none, (rl.can_make_request now).2)) ∧
    (∀ t0 rest, (rl.can_make_request now).1 = false →
        (rl.can_make_request now).2.calls = t0 :: rest →
        rl.wait_if_needed now =
          some ((if (rl.time_window : ℚ) - (now - t0) > 0
                  then some ((rl.time_window : ℚ) - (now - t0)) else none),
                (rl.can_make_request now).2)) ∧
    (∀ d st, rl.wait_if_needed now = some (d, st) →
        st.calls = rl.calls.filter
          (fun call_time => decide (now - call_time < (rl.time_window : ℚ)))) := by
  refine ⟨?_, ?_, ?_⟩
  · intro ht
    exact wait_if_needed_of_true rl now ht
  · intro t0 rest hf hc
    rw [wait_if_needed_of_false_cons rl now t0 rest hf hc]
    split_ifs <;> rfl
  · intro d st h
    by_cases hb : (rl.can_make_request now).1 = true
    · rw [wait_if_needed_of_true rl now hb] at h
      simp only [Option.some.injEq, Prod.mk.injEq] at h
      rw [← h.2, can_make_request_snd]
    · rw [Bool.not_eq_true] at hb
      rcases hc : (rl.can_make_request now).2.calls with _ | ⟨t0, rest⟩
      · rw [wait_if_needed_of_false_nil rl now hb hc] at h
        exact absurd h (by simp)
      · rw [wait_if_needed_of_false_cons rl now t0 rest hb hc] at h
        split_ifs at h <;>
          · simp only [Option.some.injEq, Prod.mk.injEq] at h
            rw [← h.2, can_make_request_snd]

/-- C6 witness: limiter with `max_calls = 1`, window 60, one call at 100; at
time 110 capacity is exhausted and `wait_if_needed` sleeps
`60 - (110 - 100) = 50` seconds, keeping `calls = [100]`. -/
theorem wait_if_needed_spec_witness :
    (RateLimiter.mk 1 60 [100]).wait_if_needed 110
      = some (some 50, RateLimiter.mk 1 60 [100]) := by
  have h := (wait_if_needed_spec (RateLimiter.mk 1 60 [100]) 110).2.1 100 []
    (by norm_num [RateLimiter.can_make_request, List.filter])
    (by norm_num [RateLimiter.can_make_request, List.filter])
  rw [h]
  norm_num [RateLimiter.can_make_request, List.filter]

/-! ### Helper lemmas about the retry loop -/

lemma retry_go_all_fail (cfg : RetryConfig) (retryable : List String)
    (func : ℕ → Except Exc α) (e : ℕ → Exc)
    (hfail : ∀ i, func i = Except.error (e i))
    (hretry : ∀ i, (e i).kind ∈ retryable) :
    ∀ (k a : ℕ) (last : Option Exc) (invoked : ℕ) (ds : List ℚ),
      cfg.max_retries = (a : ℤ) + k →
      (retry_go cfg retryable func a (k + 1) last invoked ds).outcome
          = RetryOutcome.raised (e (a + k)) ∧
      (retry_go cfg retryable func a (k + 1) last invoked ds).invocations
          = invoked + k + 1 ∧
      (retry_go cfg retryable func a (k + 1) last invoked ds).delays.length
          = k + ds.length := by
  intro k
  induction k with
  | zero =>
    intro a last invoked ds hmr
    have ha : (a : ℤ) = cfg.max_retries := by omega
    simp [retry_go, hfail a, hretry a, ha]
  | succ k ih =>
    intro a last invoked ds hmr
    have ha : ¬ ((a : ℤ) = cfg.max_retries) := by omega
    have step : retry_go cfg retryable func a (k + 1 + 1) last invoked ds
        = retry_go cfg retryable func (a + 1) (k + 1) (some (e a)) (invoked + 1)
            (cfg.base_delay * cfg.backoff_factor ^ a :: ds) := by
      conv_lhs => rw [retry_go]
      simp [hfail a, hretry a, ha]
    rw [step]
    have hmr2 : cfg.max_retries = ((a + 1 : ℕ) : ℤ) + k := by push_cast at hmr ⊢; omega
    obtain ⟨h1, h2, h3⟩ := ih (a + 1) (some (e a)) (invoked + 1) _ hmr2
    have hswap : a + 1 + k = a + (k + 1) := by omega
    refine ⟨?_, ?_, ?_⟩
    · rw [h1, hswap]
    · rw [h2]; omega
    · rw [h3]; simp [List.length_cons]; omega

lemma retry_go_delays (cfg : RetryConfig) (retryable : List String)
    (func : ℕ → Except Exc α) :
    ∀ (fuel a : ℕ) (last : Option Exc) (invoked : ℕ) (ds : List ℚ),
      ds.reverse = (List.range a).map (fun i => cfg.base_delay * cfg.backoff_factor ^ i) →
      ∃ m, (retry_go cfg retryable func a fuel last invoked ds).delays
          = (List.range m).map (fun i => cfg.base_delay * cfg.backoff_factor ^ i) := by
  intro fuel
  induction fuel with
  | zero =>
    intro a last invoked ds hds
    refine ⟨a, ?_⟩
    simp only [retry_go]
    exact hds
  | succ fuel ih =>
    intro a last invoked ds hds
    cases hfa : func a with
    | ok v =>
      refine ⟨a, ?_⟩
      simp only [retry_go, hfa]
      exact hds
    | error e =>
      by_cases hk : e.kind ∈ retryable
      · by_cases hbr : (a : ℤ) = cfg.max_retries
        · refine ⟨a, ?_⟩
          simp only [retry_go, hfa, if_pos hk, if_pos hbr]
          exact hds
        · have step : retry_go cfg retryable func a (fuel + 1) last invoked ds
              = retry_go cfg retryable func (a + 1) fuel (some e) (invoked + 1)
                  (cfg.base_delay * cfg.backoff_factor ^ a :: ds) := by
            conv_lhs => rw [retry_go]
            simp [hfa, hk, hbr]
          rw [step]
          apply ih
          simp [List.reverse_cons, hds, List.range_succ]
      · refine ⟨a, ?_⟩
        simp only [retry_go, hfa, if_neg hk]
        exact hds

lemma retry_go_succeed (cfg : RetryConfig) (retryable : List String)
    (func : ℕ → Except Exc α) (v : α) :
    ∀ (m a fuel : ℕ) (last : Option Exc) (invoked : ℕ) (ds : List ℚ),
      m < fuel → ((a : ℤ) + m ≤ cfg.max_retries) →
      (∀ j, j < m → ∃ ex, func (a + j) = Except.error ex ∧ ex.kind ∈ retryable) →
      func (a + m) = Except.ok v →
      (retry_go cfg retryable func a fuel last invoked ds).outcome = RetryOutcome.ok v ∧
      (retry_go cfg retryable func a fuel last invoked ds).invocations = invoked + m + 1 ∧
      (retry_go cfg retryable func a fuel last invoked ds).delays.length = m + ds.length := by
  intro m
  induction m with
  | zero =>
    intro a fuel last invoked ds hfuel hbound hfails hsucc
    obtain ⟨fuel, rfl⟩ : ∃ n, fuel = n + 1 := ⟨fuel - 1, by omega⟩
    rw [Nat.add_zero] at hsucc
    simp [retry_go, hsucc]
  | succ m ih =>
    intro a fuel last invoked ds hfuel hbound hfails hsucc
    obtain ⟨fuel, rfl⟩ : ∃ n, fuel = n + 1 := ⟨fuel - 1, by omega⟩
    obtain ⟨ex, hex, hexk⟩ := hfails 0 (Nat.succ_pos m)
    rw [Nat.add_zero] at hex
    have hbr : ¬ ((a : ℤ) = cfg.max_retries) := by push_cast at hbound; omega
    have step : retry_go cfg retryable func a (fuel + 1) last invoked ds
        = retry_go cfg retryable func (a + 1) fuel (some ex) (invoked + 1)
            (cfg.base_delay * cfg.backoff_factor ^ a :: ds) := by
      conv_lhs => rw [retry_go]
      simp [hex, hexk, hbr]
    rw [step]
    have h1 : m < fuel := by omega
    have h2 : ((a + 1 : ℕ) : ℤ) + m ≤ cfg.max_retries := by push_cast at hbound ⊢; omega
    have h3 : ∀ j, j < m → ∃ ex2, func (a + 1 + j) = Except.error ex2 ∧ ex2.kind ∈ retryable := by
      intro j hj
      have hx := hfails (j + 1) (by omega)
      rwa [show a + (j + 1) = a + 1 + j by omega] at hx
    have h4 : func (a + 1 + m) = Except.ok v := by
      rwa [show a + 1 + m = a + (m + 1) by omega]
    obtain ⟨o1, o2, o3⟩ := ih (a + 1) fuel (some ex) (invoked + 1) _ h1 h2 h3 h4
    refine ⟨o1, ?_, ?_⟩
    · rw [o2]; omega
    · rw [o3]; simp [List.length_cons]; omega

/-! ### Claim theorems about the retry executor -/

/-- C2: for an operation that raises a retryable failure on every
invocation and `max_retries = R ≥ 0`, `retry_with_backoff` invokes the
operation exactly `R + 1` times, re-raises the last caught failure
unchanged, and sleeps between consecutive attempts but not after the final
one (exactly `R` sleeps). -/
theorem retry_exhausts_all_attempts (cfg : RetryConfig) (retryable : List String)
    (func : ℕ → Except Exc α) (e : ℕ → Exc) (R : ℕ)
    (hfail : ∀ i, func i = Except.error (e i))
    (hretry : ∀ i, (e i).kind ∈ retryable)
    (hR : cfg.max_retries = (R : ℤ)) :
    (retry_with_backoff cfg retryable func).invocations = R + 1 ∧
    (retry_with_backoff cfg retryable func).outcome = RetryOutcome.raised (e R) ∧
    (retry_with_backoff cfg retryable func).delays.length = R := by
  have hfuel : (cfg.max_retries + 1).toNat = R + 1 := by omega
  obtain ⟨h1, h2, h3⟩ :=
    retry_go_all_fail cfg retryable func e hfail hretry R 0 none 0 [] (by omega)
  unfold retry_with_backoff
  rw [hfuel]
  refine ⟨by rw [h2]; omega, ?_, by rw [h3]; simp⟩
  rw [h1]
  simp

/-- C2 witness: an always-failing retryable operation with `max_retries = 2`
is invoked 3 times, the failure is re-raised, and two sleeps happen. -/
theorem retry_exhausts_all_attempts_witness :
    (retry_with_backoff (RetryConfig.mk 2 1 2) ["E"]
        (fun _ => (Except.error (Exc.mk "E" "boom") : Except Exc ℕ))).invocations = 3 ∧
    (retry_with_backoff (RetryConfig.mk 2 1 2) ["E"]
        (fun _ => (Except.error (Exc.mk "E" "boom") : Except Exc ℕ))).outcome
      = RetryOutcome.raised (Exc.mk "E" "boom") ∧
    (retry_with_backoff (RetryConfig.mk 2 1 2) ["E"]
        (fun _ => (Except.error (Exc.mk "E" "boom") : Except Exc ℕ))).delays.length = 2 :=
  retry_exhausts_all_attempts (RetryConfig.mk 2 1 2) ["E"] _ (fun _ => Exc.mk "E" "boom") 2
    (fun _ => rfl) (fun _ => by simp) rfl

/-- C3: every delay slept after the failed 0-indexed attempt `i` equals
`base_delay * backoff_factor ^ i`; and in the scenario
`RetryConfig(max_retries=3, base_delay=1, backoff_factor=2)` with an
operation failing retryably twice then succeeding, the delays are 1 then 2
and the operation is invoked 3 times. -/
theorem retry_delay_exponential (cfg : RetryConfig) (retryable : List String)
    (func : ℕ → Except Exc α) (i : ℕ)
    (hi : i < (retry_with_backoff cfg retryable func).delays.length) :
    (retry_with_backoff cfg retryable func).delays.get ⟨i, hi⟩
      = cfg.base_delay * cfg.backoff_factor ^ i ∧
    retry_with_backoff (RetryConfig.mk 3 1 2) ["httpx.RequestError"]
        (fun j => if j < 2 then Except.error (Exc.mk "httpx.RequestError" "boom")
                  else Except.ok (0 : ℕ))
      = RetryResult.mk (RetryOutcome.ok 0) 3 [1, 2] := by
  constructor
  · obtain ⟨m, hm⟩ := retry_go_delays cfg retryable func
      (cfg.max_retries + 1).toNat 0 none 0 [] (by simp)
    have hm2 : (retry_with_backoff cfg retryable func).delays
        = (List.range m).map (fun j => cfg.base_delay * cfg.backoff_factor ^ j) := hm
    rw [List.get_of_eq hm2]
    simp
  · norm_num [retry_with_backoff, retry_go]

/-- C3 witness: with `base_delay = 5` and `backoff_factor = 3`, the first
retry sleeps `5 * 3 ^ 0 = 5`. -/
theorem retry_delay_exponential_witness :
    (retry_with_backoff (RetryConfig.mk 1 5 3) ["E"]
        (fun _ => (Except.error (Exc.mk "E" "x") : Except Exc ℕ))).delays.get
      ⟨0, by norm_num [retry_with_backoff, retry_go]⟩ = 5 := by
  have h := (retry_delay_exponential (RetryConfig.mk 1 5 3) ["E"]
      (fun _ => (Except.error (Exc.mk "E" "x") : Except Exc ℕ)) 0
      (by norm_num [retry_with_backoff, retry_go])).1
  exact h.trans (by norm_num)

/-- C4: when the first invocation raises a failure whose kind is not in the
retryable set (and `max_retries ≥ 0` so the loop runs), the operation is
invoked exactly once and the failure propagates with no delay. -/
theorem retry_nonretryable_immediate (cfg : RetryConfig) (retryable : List String)
    (func : ℕ → Except Exc α) (ex : Exc)
    (h0 : func 0 = Except.error ex) (hnr : ex.kind ∉ retryable)
    (hcfg : 0 ≤ cfg.max_retries) :
    retry_with_backoff cfg retryable func
      = RetryResult.mk (RetryOutcome.raised ex) 1 [] := by
  obtain ⟨n, hn⟩ : ∃ n, (cfg.max_retries + 1).toNat = n + 1 :=
    ⟨cfg.max_retries.toNat, by omega⟩
  unfold retry_with_backoff
  rw [hn]
  simp [retry_go, h0, hnr]

/-- C4 witness: a first-call failure of kind "X" against retryable set
`["E"]` propagates after exactly one invocation and zero sleeps. -/
theorem retry_nonretryable_immediate_witness :
    retry_with_backoff (RetryConfig.mk 3 1 2) ["E"]
        (fun _ => (Except.error (Exc.mk "X" "bad") : Except Exc ℕ))
      = RetryResult.mk (RetryOutcome.raised (Exc.mk "X" "bad")) 1 [] :=
  retry_nonretryable_immediate (RetryConfig.mk 3 1 2) ["E"] _ (Exc.mk "X" "bad") rfl
    (by simp) (by norm_num)

/-- C5: an operation failing retryably on its first `k - 1` invocations and
succeeding on the `k`-th (with `k ≤ max_retries + 1`) is invoked exactly
`k` times; the `k`-th result is returned and no delay follows the success
(exactly `k - 1` sleeps). -/
theorem retry_returns_on_success (cfg : RetryConfig) (retryable : List String)
    (func : ℕ → Except Exc α) (v : α) (k : ℕ) (hk : 1 ≤ k)
    (hbound : (k : ℤ) ≤ cfg.max_retries + 1)
    (hfails : ∀ j, j < k - 1 → ∃ ex, func j = Except.error ex ∧ ex.kind ∈ retryable)
    (hsucc : func (k - 1) = Except.ok v) :
    (retry_with_backoff cfg retryable func).outcome = RetryOutcome.ok v ∧
    (retry_with_backoff cfg retryable func).invocations = k ∧
    (retry_with_backoff cfg retryable func).delays.length = k - 1 := by
  obtain ⟨h1, h2, h3⟩ := retry_go_succeed cfg retryable func v (k - 1) 0
    (cfg.max_retries + 1).toNat none 0 []
    (by omega) (by omega) (by simpa using hfails) (by simpa using hsucc)
  refine ⟨h1, ?_, ?_⟩
  · unfold retry_with_backoff
    rw [h2]
    omega
  · unfold retry_with_backoff
    rw [h3]
    simp

/-- C5 witness: failing retryably once then succeeding with value 7 under
`max_retries = 3` gives 2 invocations, result 7, one sleep. -/
theorem retry_returns_on_success_witness :
    (retry_with_backoff (RetryConfig.mk 3 1 2) ["E"]
        (fun j => if j = 0 then Except.error (Exc.mk "E" "x") else Except.ok (7 : ℕ))).outcome
      = RetryOutcome.ok 7 ∧
    (retry_with_backoff (RetryConfig.mk 3 1 2) ["E"]
        (fun j => if j = 0 then Except.error (Exc.mk "E" "x") else Except.ok (7 : ℕ))).invocations
      = 2 ∧
    (retry_with_backoff (RetryConfig.mk 3 1 2) ["E"]
        (fun j => if j = 0 then Except.error (Exc.mk "E" "x")
                  else Except.ok (7 : ℕ))).delays.length = 1 := by
  refine retry_returns_on_success (RetryConfig.mk 3 1 2) ["E"] _ 7 2 (by norm_num)
    (by norm_num) ?_ rfl
  intro j hj
  have hj0 : j = 0 := by omega
  subst hj0
  exact ⟨Exc.mk "E" "x", rfl, by simp⟩

/-- C10: with a negative `max_retries` the loop `range(max_retries + 1)`
runs zero iterations: the operation is never invoked, no sleep happens, and
the function executes `raise last_exception` with `last_exception` still
`None`. -/
theorem retry_negative_never_invokes (cfg : RetryConfig) (retryable : List String)
    (func : ℕ → Except Exc α) (h : cfg.max_retries < 0) :
    retry_with_backoff cfg retryable func
      = RetryResult.mk RetryOutcome.raisedNone 0 [] := by
  have h0 : (cfg.max_retries + 1).toNat = 0 := by omega
  unfold retry_with_backoff
  rw [h0]
  rfl

/-- C10 witness: `max_retries = -1` gives zero invocations and the
`raise None` outcome. -/
theorem retry_negative_never_invokes_witness :
    retry_with_backoff (RetryConfig.mk (-1) 1 2) ["E"]
        (fun _ => (Except.ok (0 : ℕ) : Except Exc ℕ))
      = RetryResult.mk RetryOutcome.raisedNone 0 [] :=
  retry_negative_never_invokes (RetryConfig.mk (-1) 1 2) ["E"] _ (by norm_num)

/-! ### Claim C7: construction-time validation -/

/-- C7 counterexample: construction does NOT fail fast.  `RateLimiter` with
`max_calls = 0` or `time_window = 0` and a `RetryConfig` with a negative
`max_retries` are all constructed successfully, and the `max_calls = 0`
limiter silently denies every request instead of erroring. -/
theorem construction_fail_fast_counterexample :
    RateLimiter.init 0 60 = Except.ok (RateLimiter.mk 0 60 []) ∧
    RateLimiter.init 100 0 = Except.ok (RateLimiter.mk 100 0 []) ∧
    RetryConfig.init (-1) 0 0 = Except.ok (RetryConfig.mk (-1) 0 0) ∧
    ((RateLimiter.mk 0 60 []).can_make_request 5).1 = false := by
  refine ⟨rfl, rfl, rfl, ?_⟩
  norm_num [RateLimiter.can_make_request, List.filter]

/-- C7 amended: construction performs no validation.  Any field values are
accepted by both constructors without error, and a limiter constructed with
`max_calls = 0` silently allows zero throughput (`can_make_request` is
always false). -/
theorem construction_accepts_any_fields (mc tw mr : ℤ) (bd bf : ℚ) :
    RateLimiter.init mc tw = Except.ok (RateLimiter.mk mc tw []) ∧
    RetryConfig.init mr bd bf = Except.ok (RetryConfig.mk mr bd bf) ∧
    (mc = 0 → ∀ now : ℚ, ((RateLimiter.mk mc tw []).can_make_request now).1 = false) := by
  refine ⟨rfl, rfl, ?_⟩
  intro h now
  subst h
  simp [RateLimiter.can_make_request]

/-- C7 amended witness: the zero-quota limiter is constructed without error
and denies the request at time 7. -/
theorem construction_accepts_any_fields_witness :
    ((RateLimiter.mk 0 60 []).can_make_request 7).1 = false ∧
    RetryConfig.init (-1) 0 0 = Except.ok (RetryConfig.mk (-1) 0 0) := by
  have h := construction_accepts_any_fields 0 60 (-1) 0 0
  exact ⟨h.2.2 rfl 7, h.2.1⟩

end PD
